import Mathlib

/-!
Verification of the planning-poker command/action dispatch core.

The definitions below are a shallow embedding of the JavaScript sources:

* `src/services/voteService.js`   — vote upsert and retrieval
* `src/services/sessionService.js` — session creation, latest-session cache
* `src/services/teamService.js`    — team installation lookup
* `src/controllers/oauthController.js` — workspace token resolution
* `src/controllers/slackController.js` — the two slash-command handlers and
  the interactive-action handler

The relational store (Supabase) is modelled as in-memory lists of rows;
every store call that can fail in the real system takes an explicit
Boolean failure flag (true means the call returns an error object).
JavaScript exceptions are modelled with `Except Unit`; the try/catch at
each dispatcher entry point is modelled by matching on that `Except`.
-/

set_option maxHeartbeats 1000000

namespace PlanningPoker

/-- A row of the sessions table (sessionService.js: insert of
id / channel / issue / created_at).  Timestamps are modelled as `Nat`;
ordering ISO-8601 strings of timestamps agrees with numeric ordering. -/
structure Session where
  id : String
  channel : String
  issue : String
  created_at : Nat
deriving Repr, DecidableEq

/-- A row of the votes table (voteService.js upsert fields). -/
structure Vote where
  session_id : String
  user_id : String
  vote : Int
  username : String
deriving Repr, DecidableEq

/-- A row of the team_installations table (the fields the token
resolver reads). -/
structure Installation where
  team_id : String
  bot_token : String
deriving Repr, DecidableEq

/-- The persistent store: three tables. -/
structure DB where
  sessions : List Session
  votes : List Vote
  installations : List Installation
deriving Repr, DecidableEq

/-- The empty store. -/
def DB.empty : DB := ⟨[], [], []⟩

/-- Composite-key test for the votes table: the on-conflict key of the
upsert in `saveVote` is (session_id, user_id). -/
def voteKeyMatches (sid uid : String) (w : Vote) : Bool :=
  w.session_id == sid && w.user_id == uid

/-- Store semantics of
`upsert(votes, row, onConflict: session_id,user_id)`: an existing row
with the same composite key is overwritten, otherwise the row is
appended. -/
def upsertVote (votes : List Vote) (v : Vote) : List Vote :=
  if votes.any (voteKeyMatches v.session_id v.user_id) then
    votes.map (fun w => if voteKeyMatches v.session_id v.user_id w then v else w)
  else
    votes ++ [v]

/-- voteService.saveVote: performs the upsert keyed on
(session_id, user_id); returns success false and leaves the store
unchanged when the store call errors. -/
def saveVote (db : DB) (sessionId userId : String) (vote : Int)
    (username : String) (storeFails : Bool) : DB × Bool :=
  if storeFails then (db, false)
  else ({ db with votes := upsertVote db.votes ⟨sessionId, userId, vote, username⟩ }, true)

/-- The in-memory latest-session cache: the module-level JavaScript
object latestSessionPerChannel, mapping channel id to session id. -/
abbrev Cache := List (String × String)

/-- Reading obj key on a JavaScript object (undefined becomes none). -/
def cacheGet (m : Cache) (k : String) : Option String :=
  (m.find? (fun p => p.1 == k)).map (fun p => p.2)

/-- Writing obj key = v on a JavaScript object: the new pair shadows any
older pair for the same key under cacheGet. -/
def cacheSet (m : Cache) (k v : String) : Cache :=
  (k, v) :: m

/-- Combined mutable state of sessionService.js: the store plus the
process-local cache. -/
structure SessState where
  db : DB
  cache : Cache
deriving Repr, DecidableEq

/-- The session id generated by createSession: the template literal
sess-(Date.now()), with the clock value passed in explicitly. -/
def sessionIdOf (now : Nat) : String := "sess-" ++ toString now

/-- Result shape of createSession. -/
structure CreateResult where
  success : Bool
  sessionId : Option String
deriving Repr, DecidableEq

/-- sessionService.createSession: generate the time-based id, insert the
row, then update the cache; on insert error return failure with the
cache and store untouched. -/
def createSession (st : SessState) (channelId issue : String) (now : Nat)
    (insertFails : Bool) : SessState × CreateResult :=
  let sessionId := sessionIdOf now
  if insertFails then (st, ⟨false, none⟩)
  else
    ({ db := { st.db with
         sessions := st.db.sessions ++ [⟨sessionId, channelId, issue, now⟩] },
       cache := cacheSet st.cache channelId sessionId },
     ⟨true, some sessionId⟩)

/-- Store semantics of select * from sessions where id = sid limit 1. -/
def selectSessionById (db : DB) (sid : String) : List Session :=
  (db.sessions.filter (fun s => s.id == sid)).take 1

/-- Store semantics of ordering by created_at descending and taking the
first row: the first row of maximal created_at among the list. -/
def pickLatest : List Session → Option Session
  | [] => none
  | s :: rest =>
    match pickLatest rest with
    | none => some s
    | some t => if t.created_at > s.created_at then some t else some s

/-- Store semantics of select * from sessions where channel = c order by
created_at desc limit 1. -/
def selectLatestByChannel (db : DB) (channelId : String) : Option Session :=
  pickLatest (db.sessions.filter (fun s => s.channel == channelId))

/-- Result shape of getLatestSessionForChannel. -/
structure GetResult where
  success : Bool
  session : Option Session
deriving Repr, DecidableEq

/-- The channel-scoped fallback query of getLatestSessionForChannel: an
error on the query returns failure; an empty result returns success with
no session; a found row refreshes the cache and is returned. -/
def getLatestFallback (st : SessState) (channelId : String)
    (chanQueryFails : Bool) : SessState × GetResult :=
  if chanQueryFails then (st, ⟨false, none⟩)
  else
    match selectLatestByChannel st.db channelId with
    | none => (st, ⟨true, none⟩)
    | some s =>
      ({ st with cache := cacheSet st.cache channelId s.id }, ⟨true, some s⟩)

/-- sessionService.getLatestSessionForChannel: check the cache first and
fetch that exact id; on a missing row, a store error on that fetch, or
no (truthy) cache entry, fall through to the channel-scoped
latest-session query. -/
def getLatestSessionForChannel (st : SessState) (channelId : String)
    (idFetchFails chanQueryFails : Bool) : SessState × GetResult :=
  match cacheGet st.cache channelId with
  | some sid =>
    if sid = "" then getLatestFallback st channelId chanQueryFails
    else if idFetchFails then getLatestFallback st channelId chanQueryFails
    else
      match selectSessionById st.db sid with
      | [] => getLatestFallback st channelId chanQueryFails
      | s :: _ => (st, ⟨true, some s⟩)
  | none => getLatestFallback st channelId chanQueryFails

/-- One step of the service-level operations that touch session state
(used to state the until-a-newer-session-is-created property). -/
inductive SOp
  | createS (channelId issue : String) (now : Nat) (insertFails : Bool)
  | saveV (sessionId userId : String) (vote : Int) (username : String) (storeFails : Bool)
  | getLatest (channelId : String) (idFetchFails chanQueryFails : Bool)
deriving Repr, DecidableEq

/-- State transition of one service operation (results discarded). -/
def runSOp (st : SessState) : SOp → SessState
  | .createS c i now f => (createSession st c i now f).1
  | .saveV sid uid v n f => ⟨(saveVote st.db sid uid v n f).1, st.cache⟩
  | .getLatest c f1 f2 => (getLatestSessionForChannel st c f1 f2).1

/-- Run a list of service operations in order. -/
def runSOps (st : SessState) (ops : List SOp) : SessState := ops.foldl runSOp st

/-- An operation spares channel c when it is not a successful session
creation in c, and any latest-session lookup it performs in c does not
hit a store error on the by-id fetch. -/
def sparesChannel (c : String) : SOp → Prop
  | .createS c' _ _ f => c' = c → f = true
  | .saveV _ _ _ _ _ => True
  | .getLatest c'' f1 _ => c'' = c → f1 = false

/-- The cache points at an existing session row for channel c. -/
def latestInv (c sid : String) (st : SessState) : Prop :=
  cacheGet st.cache c = some sid ∧ sid ≠ "" ∧ ∃ s ∈ st.db.sessions, s.id = sid

/-- teamService.getTeamInstallation: select * from team_installations
where team_id = t limit 1; a store failure is caught and reported as
success false with no installation. -/
def getTeamInstallation (db : DB) (teamId : String) (storeFails : Bool) :
    Bool × Option Installation :=
  if storeFails then (false, none)
  else (true, (db.installations.filter (fun i => i.team_id == teamId)).head?)

/-- oauthController.getBotTokenForTeam: when the lookup reports success
the code reads installation.installation.bot_token with no null check,
so a successful lookup that found no row dereferences null and throws
(modelled as Except.error); a failed lookup returns null. -/
def getBotTokenForTeam (db : DB) (teamId : String) (storeFails : Bool) :
    Except Unit (Option String) :=
  match getTeamInstallation db teamId storeFails with
  | (true, some inst) => .ok (some inst.bot_token)
  | (true, none) => .error ()
  | (false, _) => .ok none

/-- slackController.getBotToken: a falsy teamId returns the default
environment token; otherwise resolve through getBotTokenForTeam and fall
back to the default token on a falsy result. -/
def getBotToken (db : DB) (defaultToken : String) (teamId : Option String)
    (storeFails : Bool) : Except Unit String :=
  match teamId with
  | none => .ok defaultToken
  | some tid =>
    if tid = "" then .ok defaultToken
    else
      match getBotTokenForTeam db tid storeFails with
      | .error e => .error e
      | .ok none => .ok defaultToken
      | .ok (some t) => .ok (if t = "" then defaultToken else t)

/-- Modelled from the spec: `hasUserVoted` is imported by the action
dispatcher from the vote service, but its definition is absent from the
sources (the vote service module exports only saveVote, getSessionVotes
and countVotes, while the controller and its tests use hasUserVoted).
Following the spec wording: a read-only existence check for a
(session, user) pair; a failure returns hasVoted false paired with a
success-false flag. -/
def hasUserVoted (db : DB) (sessionId userId : String) (storeFails : Bool) :
    Bool × Bool :=
  if storeFails then (false, false)
  else (true, db.votes.any (voteKeyMatches sessionId userId))

/-- Result shape of voteService.getSessionVotes: the votes for the
session plus the session row itself (two store reads). -/
structure VotesResult where
  success : Bool
  votes : Option (List Vote)
  session : Option Session
deriving Repr, DecidableEq

/-- voteService.getSessionVotes: read the vote rows, then the session
row; a missing session row is tolerated (success with session null). -/
def getSessionVotes (db : DB) (sessionId : String)
    (votesQueryFails sessFetchFails : Bool) : VotesResult :=
  if votesQueryFails then ⟨false, none, none⟩
  else
    let data := db.votes.filter (fun v => v.session_id == sessionId)
    if sessFetchFails then ⟨false, none, none⟩
    else
      match selectSessionById db sessionId with
      | [] => ⟨true, some data, none⟩
      | s :: _ => ⟨true, some data, some s⟩

/-- Observable I/O actions of a dispatcher run, in program order. -/
inductive Event
  | ack
  | respond (status : Nat)
  | storeRead (table : String)
  | storeWrite (table : String)
  | httpDelayed
  | httpReaction
deriving Repr, DecidableEq

/-- Message payloads handed to sendDelayedResponse.  Literal ephemeral
texts are kept verbatim; the two formatted messages are kept abstract
(templating is outside the core). -/
inductive Msg
  | ephemeralText (text : String)
  | text (text : String)
  | pokerSession (userId issue sessionId : String)
  | pokerResults (votes : List Vote) (issue sessionId : String)
deriving Repr, DecidableEq

def usageHintText : String :=
  "Please provide an issue description or link. Usage: `/poker [issue]`"

def createErrorText : String :=
  "Error: Could not create a new planning poker session."

def processingErrorText : String :=
  "Sorry, there was an error processing your command. Please try again."

def noActiveSessionText : String :=
  "No active planning poker session found for this channel."

def votesErrorText : String :=
  "Error: Could not retrieve votes for the current session."

def missingPayloadText : String := "Error: Missing payload in the request."

def noActionsText : String := "Error: No actions found in payload."

def unsupportedActionText : String := "Error: Unsupported action."

def invalidVoteDataText : String := "Error: Invalid vote data."

def unsupportedPayloadText : String := "Error: Unsupported payload type."

def saveErrorText : String := "Error: Could not save your vote."

def actionCatchText : String :=
  "Sorry, there was an error processing your action. Please try again."

/-- The confirmation text of a saved vote. -/
def confirmText (v : Int) (updated : Bool) : String :=
  "Your vote (" ++ toString v ++ ") " ++
    (if updated then "has been updated" else "has been recorded") ++ "."

/-- The store reads performed by getBotToken before anything else in a
slash-command handler (none when teamId is falsy). -/
def tokenReadEvents : Option String → List Event
  | none => []
  | some tid => if tid = "" then [] else [Event.storeRead "team_installations"]

/-- The store reads performed by one getLatestSessionForChannel call:
one for the cache-hit by-id fetch when attempted, one for the fallback
channel query when reached. -/
def getLatestEvents (st : SessState) (channelId : String)
    (idFetchFails : Bool) : List Event :=
  match cacheGet st.cache channelId with
  | some sid =>
    if sid = "" then [Event.storeRead "sessions"]
    else if idFetchFails then [Event.storeRead "sessions", Event.storeRead "sessions"]
    else
      match selectSessionById st.db sid with
      | [] => [Event.storeRead "sessions", Event.storeRead "sessions"]
      | _ :: _ => [Event.storeRead "sessions"]
  | none => [Event.storeRead "sessions"]

/-- The body of a slash-command request (form fields the handlers
read). -/
structure CmdReq where
  text : Option String
  user_id : String
  channel_id : String
  response_url : Option String
  team_id : Option String
deriving Repr, DecidableEq

/-- What one slash-command handler run produced: its I/O trace, the
message payloads handed to sendDelayedResponse in order, the boolean the
handler resolves with, and the final service state. -/
structure CmdOutcome where
  events : List Event
  responses : List Msg
  ret : Bool
  state : SessState
deriving Repr, DecidableEq

/-- Failure-injection flags for handlePokerCommand. -/
structure PokerFlags where
  tokenStoreFails : Bool
  insertFails : Bool
  delayedOk : Bool
deriving Repr, DecidableEq

/-- slackController.handlePokerCommand: resolve the workspace token,
acknowledge with an empty 200, then require issue text, create the
session and deliver the voting message through the response URL.  The
try/catch boundary turns a thrown token resolution into a delayed
ephemeral error (when a response URL is present); the ack is never sent
on that path.  addReaction is a no-op here because no message timestamp
exists. -/
def handlePokerCommand (st : SessState) (req : CmdReq) (now : Nat)
    (fl : PokerFlags) (defaultToken : String) : CmdOutcome :=
  let tokenEvents := tokenReadEvents req.team_id
  match getBotToken st.db defaultToken req.team_id fl.tokenStoreFails with
  | .error _ =>
    match req.response_url with
    | some _ =>
      ⟨tokenEvents ++ [.httpDelayed], [.ephemeralText processingErrorText],
        fl.delayedOk, st⟩
    | none => ⟨tokenEvents, [], false, st⟩
  | .ok _ =>
    match req.text with
    | none =>
      ⟨tokenEvents ++ [.ack, .httpDelayed], [.ephemeralText usageHintText],
        fl.delayedOk, st⟩
    | some t =>
      if t = "" then
        ⟨tokenEvents ++ [.ack, .httpDelayed], [.ephemeralText usageHintText],
          fl.delayedOk, st⟩
      else
        let res := createSession st req.channel_id t now fl.insertFails
        if res.2.success then
          ⟨tokenEvents ++ [.ack, .storeWrite "sessions", .httpDelayed],
            [.pokerSession req.user_id t (res.2.sessionId.getD "")],
            fl.delayedOk, res.1⟩
        else
          ⟨tokenEvents ++ [.ack, .storeWrite "sessions", .httpDelayed],
            [.ephemeralText createErrorText], fl.delayedOk, res.1⟩

/-- Failure-injection flags for handlePokerRevealCommand. -/
structure RevealFlags where
  tokenStoreFails : Bool
  idFetchFails : Bool
  chanQueryFails : Bool
  votesQueryFails : Bool
  sessFetchFails : Bool
  delayedOk : Bool
deriving Repr, DecidableEq

/-- slackController.handlePokerRevealCommand: resolve the workspace
token, acknowledge, resolve the latest session for the channel, fetch
its votes and deliver the formatted results through the response URL.
A failed or empty latest-session resolution yields the no-active-session
message; a failed vote fetch yields the retrieval-error message. -/
def handlePokerRevealCommand (st : SessState) (req : CmdReq)
    (fl : RevealFlags) (defaultToken : String) : CmdOutcome :=
  let tokenEvents := tokenReadEvents req.team_id
  match getBotToken st.db defaultToken req.team_id fl.tokenStoreFails with
  | .error _ =>
    match req.response_url with
    | some _ =>
      ⟨tokenEvents ++ [.httpDelayed], [.text processingErrorText],
        fl.delayedOk, st⟩
    | none => ⟨tokenEvents, [], false, st⟩
  | .ok _ =>
    let latestEvents := getLatestEvents st req.channel_id fl.idFetchFails
    let res := getLatestSessionForChannel st req.channel_id
      fl.idFetchFails fl.chanQueryFails
    match res.2.success, res.2.session with
    | false, _ =>
      ⟨tokenEvents ++ [.ack] ++ latestEvents ++ [.httpDelayed],
        [.ephemeralText noActiveSessionText], fl.delayedOk, res.1⟩
    | true, none =>
      ⟨tokenEvents ++ [.ack] ++ latestEvents ++ [.httpDelayed],
        [.ephemeralText noActiveSessionText], fl.delayedOk, res.1⟩
    | true, some s =>
      let votesEvents := if fl.votesQueryFails
        then [Event.storeRead "votes"]
        else [Event.storeRead "votes", Event.storeRead "sessions"]
      let vr := getSessionVotes res.1.db s.id fl.votesQueryFails fl.sessFetchFails
      if vr.success then
        ⟨tokenEvents ++ [.ack] ++ latestEvents ++ votesEvents ++ [.httpDelayed],
          [.pokerResults (vr.votes.getD []) s.issue s.id], fl.delayedOk, res.1⟩
      else
        ⟨tokenEvents ++ [.ack] ++ latestEvents ++ votesEvents ++ [.httpDelayed],
          [.ephemeralText votesErrorText], fl.delayedOk, res.1⟩

/-- Outcome of a JavaScript JSON.parse of an embedded string. -/
inductive Parsed (α : Type)
  | malformed
  | val (a : α)
deriving Repr, DecidableEq

/-- The embedded vote payload carried by a button. -/
structure VoteData where
  sessionId : String
  vote : Int
deriving Repr, DecidableEq

/-- The user object of an interactive payload. -/
structure PayloadUser where
  id : String
  name : Option String
  username : Option String
deriving Repr, DecidableEq

/-- One element of payload.actions; value none models a falsy value. -/
structure PayloadAction where
  name : Option String
  action_id : Option String
  value : Option (Parsed VoteData)
deriving Repr, DecidableEq

/-- A parsed interactive payload, flattened to the fields the dispatcher
reads (optional chains collapsed to Option values). -/
structure Payload where
  ptype : String
  actions : List PayloadAction
  user : PayloadUser
  channel_id : Option String
  message_ts : Option String
  original_message_ts : Option String
  message_ts_block : Option String
  container_message_ts : Option String
  team_id : String
deriving Repr, DecidableEq

/-- The body of an /actions request: payload none models a missing or
falsy payload field, Parsed.malformed a payload that JSON.parse rejects. -/
structure ActionReq where
  payload : Option (Parsed Payload)
deriving Repr, DecidableEq

/-- JavaScript a or b on string-or-undefined values (empty string is
falsy). -/
def jsoS : Option String → Option String → Option String
  | some s, b => if s = "" then b else some s
  | none, b => b

/-- JavaScript truthiness test of channelId and messageTs: both must be
present and non-empty for the reaction branch to run. -/
def chTsOf (ch ts : Option String) : Option (String × String) :=
  match ch, ts with
  | some c, some t => if c = "" ∨ t = "" then none else some (c, t)
  | _, _ => none

/-- Outcome of the payload-shape analysis at the top of
handleInteractiveActions: an early textual reply, a thrown TypeError
(block action with no action_id), or a normalized vote intent.  Absent
user names are modelled as the empty string. -/
inductive ParseOutcome
  | reply (text : String)
  | thrown
  | intent (vd : VoteData) (userId userName : String)
      (chTs : Option (String × String))
deriving Repr, DecidableEq

/-- The legacy interactive_message and modern block_actions shape checks
of handleInteractiveActions, in source order. -/
def parseVoteIntent (p : Payload) : ParseOutcome :=
  if p.ptype = "interactive_message" then
    match p.actions with
    | [] => .reply noActionsText
    | action :: _ =>
      if action.name ≠ some "vote" then .reply unsupportedActionText
      else match action.value with
        | none => .reply unsupportedActionText
        | some .malformed => .reply invalidVoteDataText
        | some (.val vd) =>
          .intent vd p.user.id (p.user.name.getD "")
            (chTsOf p.channel_id (jsoS p.message_ts p.original_message_ts))
  else if p.ptype = "block_actions" then
    match p.actions with
    | [] => .reply noActionsText
    | action :: _ =>
      match action.action_id with
      | none => .thrown
      | some aid =>
        if ¬ aid.startsWith "vote_" then .reply unsupportedActionText
        else match action.value with
          | none => .reply unsupportedActionText
          | some .malformed => .reply invalidVoteDataText
          | some (.val vd) =>
            .intent vd p.user.id ((jsoS p.user.username p.user.name).getD "")
              (chTsOf p.channel_id (jsoS p.message_ts_block p.container_message_ts))
  else .reply unsupportedPayloadText

/-- What one /actions run produced: the trace, the single synchronous
response status and text, and the post-run store. -/
structure ActionOutcome where
  events : List Event
  status : Nat
  text : String
  db : DB
deriving Repr, DecidableEq

/-- Failure-injection flags for handleInteractiveActions. -/
structure ActionFlags where
  checkFails : Bool
  saveFails : Bool
  tokenStoreFails : Bool
deriving Repr, DecidableEq

/-- The try block of handleInteractiveActions; a thrown exception
(malformed payload JSON, a block action with no action_id, or the token
resolver throw in the reaction branch) surfaces as Except.error carrying
the store state and trace at the throw point. -/
def handleInteractiveActionsBody (db : DB) (req : ActionReq)
    (fl : ActionFlags) (defaultToken : String) :
    Except (DB × List Event) ActionOutcome :=
  match req.payload with
  | none => .ok ⟨[.respond 200], 200, missingPayloadText, db⟩
  | some .malformed => .error (db, [])
  | some (.val p) =>
    match parseVoteIntent p with
    | .reply t => .ok ⟨[.respond 200], 200, t, db⟩
    | .thrown => .error (db, [])
    | .intent vd uid uname chTs =>
      let check := hasUserVoted db vd.sessionId uid fl.checkFails
      let save := saveVote db vd.sessionId uid vd.vote uname fl.saveFails
      if save.2 then
        match chTs with
        | some _ =>
          match getBotToken save.1 defaultToken (some p.team_id) fl.tokenStoreFails with
          | .error _ =>
            .error (save.1,
              [.storeRead "votes", .storeWrite "votes"] ++ tokenReadEvents (some p.team_id))
          | .ok _ =>
            .ok ⟨[.storeRead "votes", .storeWrite "votes"] ++
                tokenReadEvents (some p.team_id) ++ [.httpReaction, .respond 200],
              200, confirmText vd.vote (check.1 && check.2), save.1⟩
        | none =>
          .ok ⟨[.storeRead "votes", .storeWrite "votes", .respond 200],
            200, confirmText vd.vote (check.1 && check.2), save.1⟩
      else
        .ok ⟨[.storeRead "votes", .storeWrite "votes", .respond 200],
          200, saveErrorText, save.1⟩

/-- slackController.handleInteractiveActions: the try block plus its
catch, which answers 200 with a generic apology text. -/
def handleInteractiveActions (db : DB) (req : ActionReq) (fl : ActionFlags)
    (defaultToken : String) : ActionOutcome :=
  match handleInteractiveActionsBody db req fl defaultToken with
  | .ok o => o
  | .error (db', evs) => ⟨evs ++ [.respond 200], 200, actionCatchText, db'⟩

/-- The base-10 digit list of a natural number, written by well-founded
recursion; used as a reference implementation to reason about the
fuel-based Nat.toDigits underlying Nat.repr. -/
def digitsRec (n : Nat) : List Char :=
  if n < 10 then [Nat.digitChar n]
  else digitsRec (n / 10) ++ [Nat.digitChar (n % 10)]
decreasing_by exact Nat.div_lt_self (by omega) (by omega)

/-- Numeric value of a decimal digit character. -/
def digitVal (c : Char) : Nat := c.toNat - 48

/-- Decimal value of a digit list (most significant first). -/
def valOfDigits (l : List Char) : Nat := l.foldl (fun a c => 10 * a + digitVal c) 0

/-! ### Helper lemmas about the vote upsert -/

theorem voteKeyMatches_self (sid uid : String) (v : Int) (n : String) :
    voteKeyMatches sid uid ⟨sid, uid, v, n⟩ = true := by
  simp [voteKeyMatches]

theorem filter_key_map_overwrite (sid uid : String) (v : Vote)
    (votes : List Vote)
    (hany : votes.any (voteKeyMatches sid uid) = true)
    (hlen : (votes.filter (voteKeyMatches sid uid)).length ≤ 1)
    (hkey : voteKeyMatches sid uid v = true) :
    (votes.map (fun w => if voteKeyMatches sid uid w then v else w)).filter
      (voteKeyMatches sid uid) = [v] := by
  induction votes with
  | nil => simp at hany
  | cons w ws ih =>
    by_cases hw : voteKeyMatches sid uid w = true
    · have hws : ws.filter (voteKeyMatches sid uid) = [] := by
        have h1 := hlen
        simp only [List.filter_cons, hw, if_true, List.length_cons] at h1
        exact List.length_eq_zero.mp (Nat.le_zero.mp (Nat.succ_le_succ_iff.mp h1))
      have hnone : ∀ x ∈ ws, voteKeyMatches sid uid x = false := by
        intro x hx
        by_contra hcon
        have hmem : x ∈ ws.filter (voteKeyMatches sid uid) :=
          List.mem_filter.mpr ⟨hx, by simpa using hcon⟩
        simp [hws] at hmem
      have hmap : ws.map (fun w => if voteKeyMatches sid uid w then v else w) = ws := by
        calc ws.map (fun w => if voteKeyMatches sid uid w then v else w)
            = ws.map id := by
              apply List.map_congr_left
              intro x hx
              simp [hnone x hx]
          _ = ws := List.map_id ws
      simp only [List.map_cons, hw, if_true, List.filter_cons, hkey, hmap, hws]
    · have hw' : voteKeyMatches sid uid w = false := by
        simpa using hw
      have hany' : ws.any (voteKeyMatches sid uid) = true := by
        simp only [List.any_cons, hw', Bool.false_or] at hany
        exact hany
      have hlen' : (ws.filter (voteKeyMatches sid uid)).length ≤ 1 := by
        simpa [List.filter_cons, hw'] using hlen
      simpa [List.map_cons, hw', List.filter_cons] using ih hany' hlen'

theorem filter_key_append_new (sid uid : String) (v : Vote)
    (votes : List Vote)
    (hany : votes.any (voteKeyMatches sid uid) = false)
    (hkey : voteKeyMatches sid uid v = true) :
    (votes ++ [v]).filter (voteKeyMatches sid uid) = [v] := by
  have hnil : votes.filter (voteKeyMatches sid uid) = [] := by
    apply List.filter_eq_nil_iff.mpr
    intro x hx
    have := List.any_eq_false.mp hany x hx
    simp [this]
  simp [List.filter_append, hnil, hkey]

/-- One upsert leaves exactly the fresh row for its key, provided the
store previously held at most one row for that key (the uniqueness
constraint on (session_id, user_id)). -/
theorem upsertVote_filter_key (sid uid : String) (v : Int) (n : String)
    (votes : List Vote)
    (hlen : (votes.filter (voteKeyMatches sid uid)).length ≤ 1) :
    (upsertVote votes ⟨sid, uid, v, n⟩).filter (voteKeyMatches sid uid) =
      [⟨sid, uid, v, n⟩] := by
  unfold upsertVote
  by_cases hany : votes.any (voteKeyMatches sid uid) = true
  · simp only [voteKeyMatches_self] at *
    simp only [hany, if_true]
    exact filter_key_map_overwrite sid uid _ votes hany hlen (voteKeyMatches_self sid uid v n)
  · have hany' : votes.any (voteKeyMatches sid uid) = false := by simpa using hany
    simp only [voteKeyMatches_self, hany', Bool.false_eq_true, if_false]
    exact filter_key_append_new sid uid _ votes hany' (voteKeyMatches_self sid uid v n)

/-- C2: for every sessionId, userId and votes v1 ≠ v2, saving v1 and then
v2 for the same (sessionId, userId) pair leaves exactly one vote row for
that pair, carrying vote v2 and username name2; no duplicate row is
created.  The hypothesis states the uniqueness constraint the store
enforces on the pre-existing table contents. -/
theorem C2_saveVote_twice_single_row (db : DB) (sid uid : String)
    (v1 v2 : Int) (n1 n2 : String)
    (hne : v1 ≠ v2)
    (hwf : (db.votes.filter (voteKeyMatches sid uid)).length ≤ 1) :
    let db1 := (saveVote db sid uid v1 n1 false).1
    let db2 := (saveVote db1 sid uid v2 n2 false).1
    db2.votes.filter (voteKeyMatches sid uid) = [⟨sid, uid, v2, n2⟩] := by
  intro db1 db2
  have h1 : db1.votes.filter (voteKeyMatches sid uid) = [⟨sid, uid, v1, n1⟩] := by
    show (upsertVote db.votes ⟨sid, uid, v1, n1⟩).filter (voteKeyMatches sid uid) = _
    exact upsertVote_filter_key sid uid v1 n1 db.votes hwf
  have h1len : (db1.votes.filter (voteKeyMatches sid uid)).length ≤ 1 := by
    simp [h1]
  show (upsertVote db1.votes ⟨sid, uid, v2, n2⟩).filter (voteKeyMatches sid uid) = _
  exact upsertVote_filter_key sid uid v2 n2 db1.votes h1len

/-- Witness for C2 at concrete inputs: empty store, votes 5 then 8. -/
theorem C2_saveVote_twice_single_row_witness :
    (5 : Int) ≠ 8 ∧
    ((saveVote ((saveVote DB.empty "s1" "u1" 5 "alice" false).1) "s1" "u1" 8 "bob" false).1).votes.filter
      (voteKeyMatches "s1" "u1") = [⟨"s1", "u1", 8, "bob"⟩] := by
  refine ⟨by decide, ?_⟩
  exact C2_saveVote_twice_single_row DB.empty "s1" "u1" 5 8 "alice" "bob"
    (by decide) (by simp [DB.empty])

/-! ### Decimal rendering: Nat.repr is injective -/

theorem digitVal_digitChar (m : Nat) (h : m < 10) :
    digitVal (Nat.digitChar m) = m := by
  interval_cases m <;> decide

theorem valOfDigits_append (xs : List Char) (c : Char) :
    valOfDigits (xs ++ [c]) = 10 * valOfDigits xs + digitVal c := by
  simp [valOfDigits, List.foldl_append]

theorem val_digitsRec (n : Nat) : valOfDigits (digitsRec n) = n := by
  induction n using Nat.strong_induction_on with
  | _ n ih =>
    by_cases h : n < 10
    · rw [digitsRec]
      simp [h, valOfDigits, digitVal_digitChar n h]
    · rw [digitsRec]
      simp only [h, if_false]
      rw [valOfDigits_append, ih (n / 10) (Nat.div_lt_self (by omega) (by omega)),
        digitVal_digitChar _ (Nat.mod_lt n (by omega))]
      omega

theorem digitsRec_injective : Function.Injective digitsRec := by
  intro a b h
  have hv := congrArg valOfDigits h
  rwa [val_digitsRec, val_digitsRec] at hv

theorem toDigitsCore_eq_digitsRec :
    ∀ (fuel n : Nat) (ds : List Char), 0 < fuel → n < 10 ^ fuel →
      Nat.toDigitsCore 10 fuel n ds = digitsRec n ++ ds := by
  intro fuel
  induction fuel with
  | zero => intro n ds h _; omega
  | succ fuel ih =>
    intro n ds _ hlt
    by_cases h0 : n / 10 = 0
    · have hn : n < 10 := by omega
      rw [Nat.toDigitsCore]
      simp only [h0, if_true]
      rw [digitsRec]
      simp [hn, Nat.mod_eq_of_lt hn]
    · have hge : 10 ≤ n := by omega
      have hfuel : 0 < fuel := by
        by_contra hf
        have : fuel = 0 := by omega
        subst this
        simp at hlt
        omega
      have hdiv : n / 10 < 10 ^ fuel := by
        have h10 : n < 10 ^ fuel * 10 := by
          calc n < 10 ^ (fuel + 1) := hlt
          _ = 10 ^ fuel * 10 := by rw [Nat.pow_succ]
        omega
      rw [Nat.toDigitsCore]
      simp only [h0, if_false]
      rw [ih (n / 10) (Nat.digitChar (n % 10) :: ds) hfuel hdiv]
      conv_rhs => rw [digitsRec]
      simp only [Nat.not_lt.mpr hge, if_false]
      simp [List.append_assoc]

theorem toDigits_eq_digitsRec (n : Nat) : Nat.toDigits 10 n = digitsRec n := by
  have hpow : n < 10 ^ (n + 1) := by
    calc n < 2 ^ n := Nat.lt_two_pow n
    _ ≤ 10 ^ n := Nat.pow_le_pow_left (by omega) n
    _ < 10 ^ (n + 1) := Nat.pow_lt_pow_right (by omega) (Nat.lt_succ_self n)
  have := toDigitsCore_eq_digitsRec (n + 1) n [] (by omega) hpow
  simpa [Nat.toDigits] using this

theorem repr_injective : Function.Injective Nat.repr := by
  intro a b h
  apply digitsRec_injective
  rw [← toDigits_eq_digitsRec, ← toDigits_eq_digitsRec]
  have hd := congrArg String.data h
  simpa [Nat.repr, List.asString] using hd

theorem sessionIdOf_injective : Function.Injective sessionIdOf := by
  intro a b h
  apply repr_injective
  have hd := congrArg String.data h
  simp only [sessionIdOf, String.data_append] at hd
  have hcancel := List.append_cancel_left hd
  exact String.ext hcancel

/-- C9 counterexample: two createSession calls that observe the same
Date.now() millisecond (1000), in different channels and with different
issues, generate the same session id sess-1000, so the generated ids of
two calls are not always distinct. -/
theorem C9_counterexample_same_millisecond :
    (createSession ⟨DB.empty, []⟩ "C1" "issue-a" 1000 false).2.sessionId =
      (createSession ⟨DB.empty, []⟩ "C2" "issue-b" 1000 false).2.sessionId ∧
    (createSession ⟨DB.empty, []⟩ "C1" "issue-a" 1000 false).2.sessionId =
      some "sess-1000" := by
  exact ⟨rfl, by decide⟩

/-- C9 amended: two successful createSession calls that observe distinct
Date.now() values generate distinct session ids, in any channels and
with any issues. -/
theorem C9_amended_distinct_clock_distinct_ids
    (st1 st2 : SessState) (c1 i1 c2 i2 : String) (t1 t2 : Nat)
    (hne : t1 ≠ t2) :
    (createSession st1 c1 i1 t1 false).2.sessionId ≠
      (createSession st2 c2 i2 t2 false).2.sessionId := by
  have h1 : (createSession st1 c1 i1 t1 false).2.sessionId = some (sessionIdOf t1) := rfl
  have h2 : (createSession st2 c2 i2 t2 false).2.sessionId = some (sessionIdOf t2) := rfl
  rw [h1, h2]
  intro h
  exact hne (sessionIdOf_injective (Option.some.inj h))

/-- Witness for the amended C9 at concrete clock values 1000 and 1001. -/
theorem C9_amended_witness :
    (1000 : Nat) ≠ 1001 ∧
    (createSession ⟨DB.empty, []⟩ "C1" "a" 1000 false).2.sessionId ≠
      (createSession ⟨DB.empty, []⟩ "C1" "b" 1001 false).2.sessionId :=
  ⟨by decide,
   C9_amended_distinct_clock_distinct_ids ⟨DB.empty, []⟩ ⟨DB.empty, []⟩
     "C1" "a" "C1" "b" 1000 1001 (by decide)⟩

/-! ### The latest-session cache and the session registry -/

theorem cacheGet_cacheSet_same (m : Cache) (k v : String) :
    cacheGet (cacheSet m k v) k = some v := by
  simp [cacheGet, cacheSet]

theorem cacheGet_cacheSet_other (m : Cache) (k k' v : String) (h : k' ≠ k) :
    cacheGet (cacheSet m k v) k' = cacheGet m k' := by
  unfold cacheGet cacheSet
  rw [List.find?_cons_of_neg]
  simpa using Ne.symm h

theorem sessionIdOf_ne_empty (now : Nat) : sessionIdOf now ≠ "" := by
  intro h
  have hd := congrArg String.data h
  rw [sessionIdOf, String.data_append] at hd
  simp at hd

theorem selectSessionById_mem_nonempty (db : DB) (sid : String) (s : Session)
    (hs : s ∈ db.sessions) (hid : s.id = sid) :
    ∃ t, selectSessionById db sid = [t] ∧ t.id = sid := by
  unfold selectSessionById
  have hmem : s ∈ db.sessions.filter (fun s => s.id == sid) :=
    List.mem_filter.mpr ⟨hs, by simp [hid]⟩
  cases hfil : db.sessions.filter (fun s => s.id == sid) with
  | nil => rw [hfil] at hmem; simp at hmem
  | cons t rest =>
    refine ⟨t, by simp [hfil], ?_⟩
    have htm : t ∈ db.sessions.filter (fun s => s.id == sid) := by
      rw [hfil]; exact List.mem_cons_self _ _
    simpa using (List.mem_filter.mp htm).2

/-- With a valid cache entry, the lookup takes the cache-hit path:
the state is unchanged and the returned session has the cached id. -/
theorem getLatest_hit (c sid : String) (st : SessState)
    (hinv : latestInv c sid st) (f2 : Bool) :
    ∃ t, getLatestSessionForChannel st c false f2 = (st, ⟨true, some t⟩) ∧
      t.id = sid := by
  obtain ⟨hc, hne, s, hs, hid⟩ := hinv
  obtain ⟨t, hsel, htid⟩ := selectSessionById_mem_nonempty st.db sid s hs hid
  refine ⟨t, ?_, htid⟩
  unfold getLatestSessionForChannel
  rw [hc]
  simp [hne, hsel]

/-- Every state a latest-session lookup can leave behind: unchanged, or
with the cache refreshed for the queried channel only. -/
theorem getLatest_state_cases (st : SessState) (c'' : String) (f1 f2 : Bool) :
    (getLatestSessionForChannel st c'' f1 f2).1 = st ∨
    ∃ x, (getLatestSessionForChannel st c'' f1 f2).1 =
      { st with cache := cacheSet st.cache c'' x } := by
  have hfb : (getLatestFallback st c'' f2).1 = st ∨
      ∃ x, (getLatestFallback st c'' f2).1 =
        { st with cache := cacheSet st.cache c'' x } := by
    unfold getLatestFallback
    cases f2 with
    | true => exact Or.inl rfl
    | false =>
      cases hsel : selectLatestByChannel st.db c'' with
      | none => simp [hsel]
      | some s => right; exact ⟨s.id, by simp [hsel]⟩
  unfold getLatestSessionForChannel
  cases hcg : cacheGet st.cache c'' with
  | none => simpa using hfb
  | some sid =>
    by_cases hsid : sid = ""
    · simpa [hsid] using hfb
    · cases f1 with
      | true => simpa [hsid] using hfb
      | false =>
        cases hsel : selectSessionById st.db sid with
        | nil => simpa [hsid, hsel] using hfb
        | cons s rest => simp [hsid, hsel]

/-- saveVote never touches the sessions table. -/
theorem saveVote_sessions (db : DB) (sid uid : String) (v : Int) (n : String)
    (f : Bool) : ((saveVote db sid uid v n f).1).sessions = db.sessions := by
  cases f <;> simp [saveVote]

/-- One sparing operation preserves the valid-cache-entry invariant. -/
theorem latestInv_runSOp (c sid : String) (st : SessState) (op : SOp)
    (hsp : sparesChannel c op) (hinv : latestInv c sid st) :
    latestInv c sid (runSOp st op) := by
  obtain ⟨hc, hne, s, hs, hid⟩ := hinv
  cases op with
  | createS c' i' now' f =>
    by_cases hcc : c' = c
    · have hf : f = true := hsp hcc
      subst hf
      exact ⟨hc, hne, s, by simpa [runSOp, createSession] using hs, hid⟩
    · cases f with
      | true => exact ⟨hc, hne, s, by simpa [runSOp, createSession] using hs, hid⟩
      | false =>
        refine ⟨?_, hne, s, ?_, hid⟩
        · show cacheGet (cacheSet st.cache c' (sessionIdOf now')) c = some sid
          rw [cacheGet_cacheSet_other st.cache c' c _ (fun h => hcc h.symm)]
          exact hc
        · show s ∈ st.db.sessions ++ [⟨sessionIdOf now', c', i', now'⟩]
          exact List.mem_append_left _ hs
  | saveV sid' uid' v' n' f =>
    exact ⟨hc, hne, s, by simpa [runSOp, saveVote_sessions] using hs, hid⟩
  | getLatest c'' f1 f2 =>
    by_cases hcc : c'' = c
    · subst hcc
      have hf1 : f1 = false := hsp rfl
      subst hf1
      obtain ⟨t, hres, _⟩ := getLatest_hit c'' sid st ⟨hc, hne, s, hs, hid⟩ f2
      simp only [runSOp, hres]
      exact ⟨hc, hne, s, hs, hid⟩
    · rcases getLatest_state_cases st c'' f1 f2 with hst | ⟨x, hst⟩
      · simp only [runSOp, hst]
        exact ⟨hc, hne, s, hs, hid⟩
      · simp only [runSOp, hst]
        refine ⟨?_, hne, s, hs, hid⟩
        show cacheGet (cacheSet st.cache c'' x) c = some sid
        rw [cacheGet_cacheSet_other st.cache c'' c _ (fun h => hcc h.symm)]
        exact hc

/-- A sparing trace preserves the valid-cache-entry invariant. -/
theorem latestInv_runSOps (c sid : String) (st : SessState) (ops : List SOp)
    (hops : ∀ op ∈ ops, sparesChannel c op) (hinv : latestInv c sid st) :
    latestInv c sid (runSOps st ops) := by
  induction ops generalizing st with
  | nil => simpa [runSOps] using hinv
  | cons op rest ih =>
    have h1 := latestInv_runSOp c sid st op (hops op (List.mem_cons_self _ _)) hinv
    have h2 := ih (runSOp st op) (fun o ho => hops o (List.mem_cons_of_mem _ ho)) h1
    simpa [runSOps] using h2

/-- C3: after a successful createSession in channel c, every
getLatestSessionForChannel call on c returns a session whose id equals
the id createSession returned, as long as the interleaved operations
spare channel c (no successful session creation in c; store reads used
by lookups on c succeed). -/
theorem C3_latest_until_newer (st : SessState) (c i : String) (now : Nat)
    (ops : List SOp) (hops : ∀ op ∈ ops, sparesChannel c op) (f2 : Bool) :
    (createSession st c i now false).2 = ⟨true, some (sessionIdOf now)⟩ ∧
    ∃ t, (getLatestSessionForChannel
        (runSOps (createSession st c i now false).1 ops) c false f2).2 =
      ⟨true, some t⟩ ∧ t.id = sessionIdOf now := by
  refine ⟨rfl, ?_⟩
  have hinv1 : latestInv c (sessionIdOf now) (createSession st c i now false).1 := by
    refine ⟨?_, sessionIdOf_ne_empty now, ⟨sessionIdOf now, c, i, now⟩, ?_, rfl⟩
    · show cacheGet (cacheSet st.cache c (sessionIdOf now)) c = some (sessionIdOf now)
      exact cacheGet_cacheSet_same st.cache c (sessionIdOf now)
    · show _ ∈ st.db.sessions ++ [(⟨sessionIdOf now, c, i, now⟩ : Session)]
      exact List.mem_append_right _ (List.mem_singleton.mpr rfl)
  have hinv2 := latestInv_runSOps c (sessionIdOf now)
    (createSession st c i now false).1 ops hops hinv1
  obtain ⟨t, hres, hid⟩ := getLatest_hit c (sessionIdOf now) _ hinv2 f2
  exact ⟨t, by rw [hres], hid⟩

/-- Witness for C3: a fresh store, channel C1, one interleaved vote save
and one session creation in another channel C2. -/
theorem C3_latest_until_newer_witness :
    (∀ op ∈ [SOp.saveV "sess-7" "U1" 5 "alice" false,
             SOp.createS "C2" "other issue" 9 false], sparesChannel "C1" op) ∧
    ((createSession ⟨DB.empty, []⟩ "C1" "fix login" 7 false).2 =
        ⟨true, some (sessionIdOf 7)⟩ ∧
      ∃ t, (getLatestSessionForChannel
          (runSOps (createSession ⟨DB.empty, []⟩ "C1" "fix login" 7 false).1
            [SOp.saveV "sess-7" "U1" 5 "alice" false,
             SOp.createS "C2" "other issue" 9 false]) "C1" false false).2 =
        ⟨true, some t⟩ ∧ t.id = sessionIdOf 7) := by
  have hops : ∀ op ∈ [SOp.saveV "sess-7" "U1" 5 "alice" false,
      SOp.createS "C2" "other issue" 9 false], sparesChannel "C1" op := by
    intro op hop
    rcases List.mem_cons.mp hop with h | hop
    · subst h; trivial
    rcases List.mem_cons.mp hop with h | hop
    · subst h
      intro hc
      exact absurd hc (by decide)
    · exact absurd hop (List.not_mem_nil op)
  exact ⟨hops, C3_latest_until_newer ⟨DB.empty, []⟩ "C1" "fix login" 7 _ hops false⟩

/-- C7: getLatestSessionForChannel follows the specified algorithm.
On a cache hit whose by-id fetch finds a row, that exact session (id
equal to the cached id) is returned with the state unchanged.  On a
stale cache entry (by-id fetch returns empty) it falls through to the
channel-scoped created_at-descending limit-1 query, refreshing the cache
when a row is found and returning success-with-null when none is.  With
no cache entry, an empty channel yields success-with-null, while a store
failure on the channel query yields an error result, a distinct
outcome. -/
theorem C7_getLatestSession_algorithm (st : SessState) (c : String) :
    (∀ sid s rest, cacheGet st.cache c = some sid → sid ≠ "" →
        selectSessionById st.db sid = s :: rest →
        getLatestSessionForChannel st c false false = (st, ⟨true, some s⟩) ∧
          s.id = sid) ∧
    (∀ sid, cacheGet st.cache c = some sid → sid ≠ "" →
        selectSessionById st.db sid = [] →
        ((∀ s, selectLatestByChannel st.db c = some s →
            getLatestSessionForChannel st c false false =
              ({ st with cache := cacheSet st.cache c s.id }, ⟨true, some s⟩)) ∧
         (selectLatestByChannel st.db c = none →
            getLatestSessionForChannel st c false false = (st, ⟨true, none⟩)))) ∧
    (cacheGet st.cache c = none →
        ((selectLatestByChannel st.db c = none →
            getLatestSessionForChannel st c false false = (st, ⟨true, none⟩)) ∧
         getLatestSessionForChannel st c false true = (st, ⟨false, none⟩))) := by
  refine ⟨?_, ?_, ?_⟩
  · intro sid s rest hcg hne hsel
    constructor
    · unfold getLatestSessionForChannel
      rw [hcg]
      simp [hne, hsel]
    · have hmem : s ∈ st.db.sessions.filter (fun t => t.id == sid) := by
        have : s ∈ (st.db.sessions.filter (fun t => t.id == sid)).take 1 := by
          rw [show (st.db.sessions.filter (fun t => t.id == sid)).take 1
              = s :: rest from hsel]
          exact List.mem_cons_self _ _
        exact List.take_subset _ _ this
      simpa using (List.mem_filter.mp hmem).2
  · intro sid hcg hne hsel
    constructor
    · intro s hlatest
      unfold getLatestSessionForChannel
      rw [hcg]
      simp [hne, hsel, getLatestFallback, hlatest]
    · intro hlatest
      unfold getLatestSessionForChannel
      rw [hcg]
      simp [hne, hsel, getLatestFallback, hlatest]
  · intro hcg
    constructor
    · intro hlatest
      unfold getLatestSessionForChannel
      rw [hcg]
      simp [getLatestFallback, hlatest]
    · unfold getLatestSessionForChannel
      rw [hcg]
      simp [getLatestFallback]

/-- Witness for C7: the three branches at concrete states — a valid
cache hit, a stale cache entry falling through to the channel query, and
an empty store with and without a store failure. -/
theorem C7_getLatestSession_algorithm_witness :
    (getLatestSessionForChannel
        ⟨⟨[⟨"sess-7", "C1", "x", 7⟩], [], []⟩, [("C1", "sess-7")]⟩ "C1" false false =
      (⟨⟨[⟨"sess-7", "C1", "x", 7⟩], [], []⟩, [("C1", "sess-7")]⟩,
        ⟨true, some ⟨"sess-7", "C1", "x", 7⟩⟩)) ∧
    (getLatestSessionForChannel
        ⟨⟨[⟨"sess-7", "C1", "x", 7⟩], [], []⟩, [("C1", "sess-9")]⟩ "C1" false false =
      (⟨⟨[⟨"sess-7", "C1", "x", 7⟩], [], []⟩,
          cacheSet [("C1", "sess-9")] "C1" "sess-7"⟩,
        ⟨true, some ⟨"sess-7", "C1", "x", 7⟩⟩)) ∧
    (getLatestSessionForChannel ⟨DB.empty, []⟩ "C1" false false =
      (⟨DB.empty, []⟩, ⟨true, none⟩)) ∧
    (getLatestSessionForChannel ⟨DB.empty, []⟩ "C1" false true =
      (⟨DB.empty, []⟩, ⟨false, none⟩)) := by
  refine ⟨?_, ?_, ?_, ?_⟩
  · exact ((C7_getLatestSession_algorithm
      ⟨⟨[⟨"sess-7", "C1", "x", 7⟩], [], []⟩, [("C1", "sess-7")]⟩ "C1").1
      "sess-7" ⟨"sess-7", "C1", "x", 7⟩ [] rfl (by decide) (by decide)).1
  · exact ((C7_getLatestSession_algorithm
      ⟨⟨[⟨"sess-7", "C1", "x", 7⟩], [], []⟩, [("C1", "sess-9")]⟩ "C1").2.1
      "sess-9" rfl (by decide) (by decide)).1 ⟨"sess-7", "C1", "x", 7⟩ (by decide)
  · exact ((C7_getLatestSession_algorithm ⟨DB.empty, []⟩ "C1").2.2 rfl).1 (by decide)
  · exact ((C7_getLatestSession_algorithm ⟨DB.empty, []⟩ "C1").2.2 rfl).2

/-! ### The workspace token resolver and the dispatcher boundaries -/

/-- C6: evaluating the resolver at a teamId whose workspace has no
stored installation, with a healthy store: the lookup succeeds and finds
nothing, and getBotTokenForTeam throws (reads bot_token of null) instead
of returning null, so getBotToken propagates the exception rather than
falling back to the default credential.  A store failure, by contrast,
does fall back. -/
theorem C6_token_resolver_throws_on_missing_installation :
    getTeamInstallation DB.empty "T1" false = (true, none) ∧
    getBotTokenForTeam DB.empty "T1" false = .error () ∧
    getBotToken DB.empty "xoxb-default" (some "T1") false = .error () ∧
    getBotToken DB.empty "xoxb-default" (some "T1") true = .ok "xoxb-default" ∧
    getBotToken DB.empty "xoxb-default" none false = .ok "xoxb-default" := by
  refine ⟨rfl, rfl, rfl, rfl, rfl⟩

/-- C4 counterexample: a /poker command from an installed workspace
performs the team_installations store read strictly before the 2xx
acknowledgment, so the dispatcher does not acknowledge before all store
I/O. -/
theorem C4_counterexample_store_read_before_ack :
    (handlePokerCommand ⟨⟨[], [], [⟨"T1", "xoxb-team"⟩]⟩, []⟩
        ⟨some "fix login", "U1", "C1", some "hooks-resp", some "T1"⟩
        1000 ⟨false, false, true⟩ "xoxb-default").events =
      [.storeRead "team_installations", .ack, .storeWrite "sessions",
        .httpDelayed] := by
  rfl

theorem tokenReadEvents_only_installation_reads (tid : Option String) :
    ∀ e ∈ tokenReadEvents tid, e = .storeRead "team_installations" := by
  cases tid with
  | none => intro e he; simp [tokenReadEvents] at he
  | some t =>
    intro e he
    by_cases ht : t = "" <;> simp [tokenReadEvents, ht] at he <;> simp [he]

theorem getLatestEvents_no_ack (st : SessState) (c : String) (f1 : Bool) :
    Event.ack ∉ getLatestEvents st c f1 := by
  unfold getLatestEvents
  cases h : cacheGet st.cache c with
  | none => simp
  | some sid =>
    by_cases hs : sid = ""
    · simp [hs]
    · cases f1 with
      | false =>
        cases h2 : selectSessionById st.db sid with
        | nil => simp [hs, h2]
        | cons a l => simp [hs, h2]
      | true => simp [hs]

theorem handlePoker_events_shape (st : SessState) (req : CmdReq) (now : Nat)
    (fl : PokerFlags) (dt : String)
    (hp : ∃ tok, getBotToken st.db dt req.team_id fl.tokenStoreFails = .ok tok) :
    ∃ post, (handlePokerCommand st req now fl dt).events =
      tokenReadEvents req.team_id ++ Event.ack :: post ∧ Event.ack ∉ post := by
  obtain ⟨tok, htok⟩ := hp
  unfold handlePokerCommand
  rw [htok]
  cases req.text with
  | none => exact ⟨[.httpDelayed], rfl, by decide⟩
  | some t =>
    by_cases ht : t = ""
    · simp only [ht, if_pos rfl]
      exact ⟨[.httpDelayed], rfl, by decide⟩
    · simp only [if_neg ht]
      cases hf : fl.insertFails
      · simp only [createSession, if_neg Bool.false_ne_true]
        exact ⟨[.storeWrite "sessions", .httpDelayed], by simp [createSession], by decide⟩
      · exact ⟨[.storeWrite "sessions", .httpDelayed], by simp [createSession], by decide⟩

theorem handleReveal_events_shape (st : SessState) (req : CmdReq)
    (fl : RevealFlags) (dt : String)
    (hr : ∃ tok, getBotToken st.db dt req.team_id fl.tokenStoreFails = .ok tok) :
    ∃ post, (handlePokerRevealCommand st req fl dt).events =
      tokenReadEvents req.team_id ++ Event.ack :: post ∧ Event.ack ∉ post := by
  obtain ⟨tok, htok⟩ := hr
  unfold handlePokerRevealCommand
  rw [htok]
  have hnl := getLatestEvents_no_ack st req.channel_id fl.idFetchFails
  cases hsucc : (getLatestSessionForChannel st req.channel_id fl.idFetchFails
      fl.chanQueryFails).2.success
  · refine ⟨getLatestEvents st req.channel_id fl.idFetchFails ++ [.httpDelayed], ?_, ?_⟩
    · simp [hsucc]
    · intro hmem
      rcases List.mem_append.mp hmem with h | h
      · exact hnl h
      · simp at h
  · cases hses : (getLatestSessionForChannel st req.channel_id fl.idFetchFails
        fl.chanQueryFails).2.session
    · refine ⟨getLatestEvents st req.channel_id fl.idFetchFails ++ [.httpDelayed], ?_, ?_⟩
      · simp [hsucc, hses]
      · intro hmem
        rcases List.mem_append.mp hmem with h | h
        · exact hnl h
        · simp at h
    · rename_i s
      refine ⟨getLatestEvents st req.channel_id fl.idFetchFails ++
          (if fl.votesQueryFails then [Event.storeRead "votes"]
            else [Event.storeRead "votes", Event.storeRead "sessions"]) ++
          [.httpDelayed], ?_, ?_⟩
      · by_cases hvs : (getSessionVotes
            (getLatestSessionForChannel st req.channel_id fl.idFetchFails
              fl.chanQueryFails).1.db s.id fl.votesQueryFails fl.sessFetchFails).success = true
        · simp [hsucc, hses, hvs]
        · simp only [Bool.not_eq_true] at hvs
          simp [hsucc, hses, hvs]
      · intro hmem
        rcases List.mem_append.mp hmem with h | h
        · rcases List.mem_append.mp h with h2 | h2
          · exact hnl h2
          · by_cases hv : fl.votesQueryFails <;> simp [hv] at h2
        · simp at h

/-- C4 amended: both slash-command dispatchers perform the workspace
token lookup (a team_installations read when teamId is truthy) before
the acknowledgment; provided that lookup returns rather than throws,
they then send the single 2xx acknowledgment, and every other store or
network call happens strictly after it. -/
theorem C4_amended_ack_before_all_but_token_lookup (st : SessState)
    (req : CmdReq) (now : Nat) (pfl : PokerFlags) (rfl2 : RevealFlags)
    (dt : String)
    (hp : ∃ tok, getBotToken st.db dt req.team_id pfl.tokenStoreFails = .ok tok)
    (hr : ∃ tok, getBotToken st.db dt req.team_id rfl2.tokenStoreFails = .ok tok) :
    (∃ post, (handlePokerCommand st req now pfl dt).events =
      tokenReadEvents req.team_id ++ Event.ack :: post ∧ Event.ack ∉ post) ∧
    (∃ post, (handlePokerRevealCommand st req rfl2 dt).events =
      tokenReadEvents req.team_id ++ Event.ack :: post ∧ Event.ack ∉ post) ∧
    (∀ e ∈ tokenReadEvents req.team_id, e = .storeRead "team_installations") :=
  ⟨handlePoker_events_shape st req now pfl dt hp,
   handleReveal_events_shape st req rfl2 dt hr,
   tokenReadEvents_only_installation_reads req.team_id⟩

/-- Witness for the amended C4 at a concrete installed-workspace
request. -/
theorem C4_amended_witness :
    (∃ tok, getBotToken ⟨[], [], [⟨"T1", "xoxb-team"⟩]⟩ "xoxb-default"
        (some "T1") false = .ok tok) ∧
    (∃ post, (handlePokerCommand ⟨⟨[], [], [⟨"T1", "xoxb-team"⟩]⟩, []⟩
        ⟨some "fix login", "U1", "C1", some "hooks-resp", some "T1"⟩ 1000
        ⟨false, false, true⟩ "xoxb-default").events =
      tokenReadEvents (some "T1") ++ Event.ack :: post ∧ Event.ack ∉ post) := by
  refine ⟨⟨"xoxb-team", rfl⟩, ?_⟩
  exact (C4_amended_ack_before_all_but_token_lookup
    ⟨⟨[], [], [⟨"T1", "xoxb-team"⟩]⟩, []⟩
    ⟨some "fix login", "U1", "C1", some "hooks-resp", some "T1"⟩ 1000
    ⟨false, false, true⟩ ⟨false, false, false, false, false, true⟩
    "xoxb-default" ⟨"xoxb-team", rfl⟩ ⟨"xoxb-team", rfl⟩).1

/-- C10: when the latest-session resolution reports a store failure, the
reveal dispatcher sends exactly the no-active-session ephemeral message,
the same delayed response it sends when the resolution succeeds but
finds no session: the two outcomes are indistinguishable to the user. -/
theorem C10_reveal_store_failure_looks_like_absence (st : SessState)
    (req : CmdReq) (fl : RevealFlags) (dt : String)
    (htok : ∃ tok, getBotToken st.db dt req.team_id fl.tokenStoreFails = .ok tok) :
    ((getLatestSessionForChannel st req.channel_id fl.idFetchFails
        fl.chanQueryFails).2.success = false →
      (handlePokerRevealCommand st req fl dt).responses =
        [.ephemeralText noActiveSessionText]) ∧
    ((getLatestSessionForChannel st req.channel_id fl.idFetchFails
        fl.chanQueryFails).2.session = none →
      (handlePokerRevealCommand st req fl dt).responses =
        [.ephemeralText noActiveSessionText]) := by
  obtain ⟨tok, htk⟩ := htok
  constructor
  · intro hsucc
    unfold handlePokerRevealCommand
    rw [htk]
    simp [hsucc]
  · intro hses
    unfold handlePokerRevealCommand
    rw [htk]
    cases hsucc : (getLatestSessionForChannel st req.channel_id fl.idFetchFails
        fl.chanQueryFails).2.success <;> simp [hsucc, hses]

/-- Witness for C10: an empty store with a failing channel query (store
failure), and the same store with a healthy query finding nothing. -/
theorem C10_witness :
    ((getLatestSessionForChannel ⟨DB.empty, []⟩ "C1" false true).2.success = false ∧
      (handlePokerRevealCommand ⟨DB.empty, []⟩ ⟨none, "U1", "C1", some "u", none⟩
        ⟨false, false, true, false, false, true⟩ "xoxb").responses =
          [.ephemeralText noActiveSessionText]) ∧
    ((getLatestSessionForChannel ⟨DB.empty, []⟩ "C1" false false).2.session = none ∧
      (handlePokerRevealCommand ⟨DB.empty, []⟩ ⟨none, "U1", "C1", some "u", none⟩
        ⟨false, false, false, false, false, true⟩ "xoxb").responses =
          [.ephemeralText noActiveSessionText]) := by
  constructor
  · exact ⟨rfl, (C10_reveal_store_failure_looks_like_absence ⟨DB.empty, []⟩
      ⟨none, "U1", "C1", some "u", none⟩ ⟨false, false, true, false, false, true⟩
      "xoxb" ⟨"xoxb", rfl⟩).1 rfl⟩
  · exact ⟨rfl, (C10_reveal_store_failure_looks_like_absence ⟨DB.empty, []⟩
      ⟨none, "U1", "C1", some "u", none⟩ ⟨false, false, false, false, false, true⟩
      "xoxb" ⟨"xoxb", rfl⟩).2 rfl⟩

/-- C5 counterexample: an /actions request whose payload field is
malformed JSON is answered 200 with the generic apology text of the
dispatch-boundary catch, whose body does not contain the phrase Invalid
vote data. -/
theorem C5_counterexample_generic_not_invalid_vote_data :
    (handleInteractiveActions DB.empty ⟨some .malformed⟩
      ⟨false, false, false⟩ "xoxb").status = 200 ∧
    (handleInteractiveActions DB.empty ⟨some .malformed⟩
      ⟨false, false, false⟩ "xoxb").text = actionCatchText ∧
    ¬ ("Invalid vote data".data <:+: actionCatchText.data) := by
  refine ⟨rfl, rfl, by decide⟩

/-- C5 amended: malformed payload-field JSON is caught at the dispatch
boundary and answered 200 with the generic processing-error text, with
the store untouched; the Invalid vote data message is the reply to a
well-shaped vote action whose embedded action value is malformed JSON. -/
theorem C5_amended_malformed_payload_caught (db : DB) (fl : ActionFlags)
    (dt : String) :
    ((handleInteractiveActions db ⟨some .malformed⟩ fl dt).status = 200 ∧
     (handleInteractiveActions db ⟨some .malformed⟩ fl dt).text = actionCatchText ∧
     (handleInteractiveActions db ⟨some .malformed⟩ fl dt).db = db) ∧
    (∀ p action rest, p.ptype = "interactive_message" →
      p.actions = action :: rest → action.name = some "vote" →
      action.value = some .malformed →
      (handleInteractiveActions db ⟨some (.val p)⟩ fl dt).status = 200 ∧
      (handleInteractiveActions db ⟨some (.val p)⟩ fl dt).text =
        invalidVoteDataText) := by
  constructor
  · exact ⟨rfl, rfl, rfl⟩
  · intro p action rest hpt hact hname hval
    have hparse : parseVoteIntent p = .reply invalidVoteDataText := by
      unfold parseVoteIntent
      simp [hpt, hact, hname, hval]
    constructor
    · simp only [handleInteractiveActions, handleInteractiveActionsBody, hparse]
    · simp only [handleInteractiveActions, handleInteractiveActionsBody, hparse]

/-- Witness for the amended C5 at a concrete malformed embedded value. -/
theorem C5_amended_witness :
    ((handleInteractiveActions DB.empty ⟨some .malformed⟩
        ⟨false, false, false⟩ "xoxb").text = actionCatchText) ∧
    ((handleInteractiveActions DB.empty
        ⟨some (.val ⟨"interactive_message",
          [⟨some "vote", none, some .malformed⟩],
          ⟨"U1", some "alice", none⟩, none, none, none, none, none, "T1"⟩)⟩
        ⟨false, false, false⟩ "xoxb").text = invalidVoteDataText) := by
  refine ⟨(C5_amended_malformed_payload_caught DB.empty ⟨false, false, false⟩ "xoxb").1.2.1, ?_⟩
  exact ((C5_amended_malformed_payload_caught DB.empty ⟨false, false, false⟩ "xoxb").2
    ⟨"interactive_message", [⟨some "vote", none, some .malformed⟩],
      ⟨"U1", some "alice", none⟩, none, none, none, none, none, "T1"⟩
    ⟨some "vote", none, some .malformed⟩ [] rfl rfl rfl rfl).2

/-- C1: on a valid vote action the dispatcher reads prior-vote existence
from the votes table before writing the vote (the storeRead "votes"
precedes the storeWrite "votes" in the trace, and the wording is decided
by the pre-save table), saves the vote, and the ephemeral confirmation
says "has been recorded" exactly when no prior row existed for the
(session, user) pair and "has been updated" when one did.  Requires the
existence check and the save to succeed, and the token resolution of the
reaction branch (when a channel and message timestamp are present) not
to throw. -/
theorem C1_vote_recorded_vs_updated (db : DB) (p : Payload) (fl : ActionFlags)
    (dt : String) (vd : VoteData) (uid uname : String)
    (chTs : Option (String × String))
    (hintent : parseVoteIntent p = .intent vd uid uname chTs)
    (hcheck : fl.checkFails = false) (hsave : fl.saveFails = false)
    (htok : ∀ c t, chTs = some (c, t) → ∃ tok,
      getBotToken (saveVote db vd.sessionId uid vd.vote uname false).1 dt
        (some p.team_id) fl.tokenStoreFails = .ok tok) :
    (handleInteractiveActions db ⟨some (.val p)⟩ fl dt).status = 200 ∧
    (handleInteractiveActions db ⟨some (.val p)⟩ fl dt).db =
      (saveVote db vd.sessionId uid vd.vote uname false).1 ∧
    (∃ rest, (handleInteractiveActions db ⟨some (.val p)⟩ fl dt).events =
      Event.storeRead "votes" :: Event.storeWrite "votes" :: rest) ∧
    (handleInteractiveActions db ⟨some (.val p)⟩ fl dt).text =
      confirmText vd.vote (db.votes.any (voteKeyMatches vd.sessionId uid)) := by
  obtain ⟨cf, sf, tf⟩ := fl
  simp only at hcheck hsave
  subst hcheck
  subst hsave
  have hsv2 : (saveVote db vd.sessionId uid vd.vote uname false).2 = true := by
    simp [saveVote]
  have hchk : hasUserVoted db vd.sessionId uid false =
      (true, db.votes.any (voteKeyMatches vd.sessionId uid)) := by
    simp [hasUserVoted]
  cases chTs with
  | none =>
    refine ⟨?_, ?_, ⟨[Event.respond 200], ?_⟩, ?_⟩ <;>
      simp [handleInteractiveActions, handleInteractiveActionsBody, hintent,
        hchk, hsv2]
  | some ct =>
    obtain ⟨c, t⟩ := ct
    obtain ⟨tok, htk⟩ := htok c t rfl
    refine ⟨?_, ?_, ⟨tokenReadEvents (some p.team_id) ++
        [Event.httpReaction, Event.respond 200], ?_⟩, ?_⟩ <;>
      simp [handleInteractiveActions, handleInteractiveActionsBody, hintent,
        hchk, hsv2, htk]

/-- Witness for C1: a first vote yields the recorded wording, a repeat
vote by the same user in the same session yields the updated wording. -/
theorem C1_witness :
    parseVoteIntent ⟨"interactive_message",
        [⟨some "vote", none, some (.val ⟨"sess-1", 5⟩)⟩],
        ⟨"U1", some "alice", none⟩, none, none, none, none, none, "T1"⟩ =
      .intent ⟨"sess-1", 5⟩ "U1" "alice" none ∧
    (handleInteractiveActions DB.empty
        ⟨some (.val ⟨"interactive_message",
          [⟨some "vote", none, some (.val ⟨"sess-1", 5⟩)⟩],
          ⟨"U1", some "alice", none⟩, none, none, none, none, none, "T1"⟩)⟩
        ⟨false, false, false⟩ "xoxb").text = confirmText 5 false ∧
    (handleInteractiveActions ⟨[], [⟨"sess-1", "U1", 5, "alice"⟩], []⟩
        ⟨some (.val ⟨"interactive_message",
          [⟨some "vote", none, some (.val ⟨"sess-1", 8⟩)⟩],
          ⟨"U1", some "alice", none⟩, none, none, none, none, none, "T1"⟩)⟩
        ⟨false, false, false⟩ "xoxb").text = confirmText 8 true := by
  refine ⟨rfl, ?_, ?_⟩
  · exact (C1_vote_recorded_vs_updated DB.empty
      ⟨"interactive_message", [⟨some "vote", none, some (.val ⟨"sess-1", 5⟩)⟩],
        ⟨"U1", some "alice", none⟩, none, none, none, none, none, "T1"⟩
      ⟨false, false, false⟩ "xoxb" ⟨"sess-1", 5⟩ "U1" "alice" none rfl rfl rfl
      (fun c t h => nomatch h)).2.2.2
  · exact (C1_vote_recorded_vs_updated ⟨[], [⟨"sess-1", "U1", 5, "alice"⟩], []⟩
      ⟨"interactive_message", [⟨some "vote", none, some (.val ⟨"sess-1", 8⟩)⟩],
        ⟨"U1", some "alice", none⟩, none, none, none, none, none, "T1"⟩
      ⟨false, false, false⟩ "xoxb" ⟨"sess-1", 8⟩ "U1" "alice" none rfl rfl rfl
      (fun c t h => nomatch h)).2.2.2

theorem actions_status_always_200 (db : DB) (areq : ActionReq)
    (afl : ActionFlags) (dt : String) :
    (handleInteractiveActions db areq afl dt).status = 200 := by
  obtain ⟨pay⟩ := areq
  unfold handleInteractiveActions handleInteractiveActionsBody
  cases pay with
  | none => rfl
  | some pp =>
    cases pp with
    | malformed => rfl
    | val p =>
      cases hpi : parseVoteIntent p with
      | reply t => simp [hpi]
      | thrown => simp [hpi]
      | intent vd uid uname chTs =>
        simp only [hpi]
        by_cases hsv : (saveVote db vd.sessionId uid vd.vote uname
            afl.saveFails).2 = true
        · cases chTs with
          | none => simp [hsv]
          | some ct =>
            cases htk : getBotToken (saveVote db vd.sessionId uid vd.vote uname
                afl.saveFails).1 dt (some p.team_id) afl.tokenStoreFails with
            | error e => simp [hsv, htk]
            | ok tok => simp [hsv, htk]
        · simp only [Bool.not_eq_true] at hsv
          simp [hsv]

theorem actions_responds_only_200 (db : DB) (areq : ActionReq)
    (afl : ActionFlags) (dt : String) :
    ∀ e ∈ (handleInteractiveActions db areq afl dt).events, ∀ s,
      e = .respond s → s = 200 := by
  obtain ⟨pay⟩ := areq
  unfold handleInteractiveActions handleInteractiveActionsBody
  cases pay with
  | none =>
    intro e he s hes
    subst hes
    simp at he
    simp [he]
  | some pp =>
    cases pp with
    | malformed =>
      intro e he s hes
      subst hes
      simp at he
      simp [he]
    | val p =>
      cases hpi : parseVoteIntent p with
      | reply t =>
        simp only [hpi]
        intro e he s hes
        subst hes
        simp at he
        simp [he]
      | thrown =>
        simp only [hpi]
        intro e he s hes
        subst hes
        simp at he
        simp [he]
      | intent vd uid uname chTs =>
        simp only [hpi]
        by_cases hsv : (saveVote db vd.sessionId uid vd.vote uname
            afl.saveFails).2 = true
        · cases chTs with
          | none =>
            simp only [hsv, if_true]
            intro e he s hes
            subst hes
            simp at he
            simp [he]
          | some ct =>
            cases htk : getBotToken (saveVote db vd.sessionId uid vd.vote uname
                afl.saveFails).1 dt (some p.team_id) afl.tokenStoreFails with
            | error e0 =>
              simp only [hsv, if_true, htk]
              intro e he s hes
              subst hes
              by_cases htid : p.team_id = "" <;>
                simp [tokenReadEvents, htid] at he <;> exact he
            | ok tok =>
              simp only [hsv, if_true, htk]
              intro e he s hes
              subst hes
              by_cases htid : p.team_id = "" <;>
                [skip; skip] <;>
                simp [tokenReadEvents, htid] at he <;>
                simp [he]
        · simp only [Bool.not_eq_true] at hsv
          simp only [hsv]
          intro e he s hes
          subst hes
          simp at he
          simp [he]

/-- C8: every exception raised inside a dispatcher entry point is caught
at that boundary and converted into the fixed textual error message (a
delayed ephemeral text for the slash handlers, which always receive a
response URL per the inbound contract; a direct 200 text for the action
handler), and the action handler only ever answers HTTP 200. -/
theorem C8_exceptions_caught_at_boundary (st : SessState) (req : CmdReq)
    (now : Nat) (pfl : PokerFlags) (rfl2 : RevealFlags) (db : DB)
    (areq : ActionReq) (afl : ActionFlags) (dt u : String)
    (hurl : req.response_url = some u) :
    (∀ e, getBotToken st.db dt req.team_id pfl.tokenStoreFails = .error e →
      (handlePokerCommand st req now pfl dt).responses =
        [.ephemeralText processingErrorText]) ∧
    (∀ e, getBotToken st.db dt req.team_id rfl2.tokenStoreFails = .error e →
      (handlePokerRevealCommand st req rfl2 dt).responses =
        [.text processingErrorText]) ∧
    (∀ d evs, handleInteractiveActionsBody db areq afl dt = .error (d, evs) →
      (handleInteractiveActions db areq afl dt).status = 200 ∧
      (handleInteractiveActions db areq afl dt).text = actionCatchText) ∧
    (handleInteractiveActions db areq afl dt).status = 200 ∧
    (∀ e ∈ (handleInteractiveActions db areq afl dt).events, ∀ s,
      e = .respond s → s = 200) := by
  refine ⟨?_, ?_, ?_, actions_status_always_200 db areq afl dt,
    actions_responds_only_200 db areq afl dt⟩
  · intro e he
    unfold handlePokerCommand
    rw [he, hurl]
  · intro e he
    unfold handlePokerRevealCommand
    rw [he, hurl]
  · intro d evs he
    unfold handleInteractiveActions
    rw [he]
    exact ⟨rfl, rfl⟩

/-- Witness for C8: a /poker command whose token resolution throws (team
present, lookup succeeds, no installation stored) degrades to the
delayed ephemeral error text, and a malformed /actions payload degrades
to the 200 apology text. -/
theorem C8_witness :
    (handlePokerCommand ⟨DB.empty, []⟩
        ⟨some "fix", "U1", "C1", some "hooks-resp", some "T1"⟩ 1000
        ⟨false, false, true⟩ "xoxb").responses =
      [.ephemeralText processingErrorText] ∧
    (handleInteractiveActions DB.empty ⟨some .malformed⟩
        ⟨false, false, false⟩ "xoxb").status = 200 ∧
    (handleInteractiveActions DB.empty ⟨some .malformed⟩
        ⟨false, false, false⟩ "xoxb").text = actionCatchText := by
  have h := C8_exceptions_caught_at_boundary ⟨DB.empty, []⟩
    ⟨some "fix", "U1", "C1", some "hooks-resp", some "T1"⟩ 1000
    ⟨false, false, true⟩ ⟨false, false, false, false, false, true⟩
    DB.empty ⟨some .malformed⟩ ⟨false, false, false⟩ "xoxb" "hooks-resp" rfl
  exact ⟨h.1 () rfl, (h.2.2.1 DB.empty [] rfl).1, (h.2.2.1 DB.empty [] rfl).2⟩
